import Mathlib

/-!
# Stream provisioning service — shallow embedding

A shallow embedding of the dedicated stream provisioning subsystem of the
repository (`app/stream_provisioning/service.py` together with the ORM
models in `app/stream_provisioning_models.py`), and proofs about it.

The database tables `port_pool` and `dedicated_streams` are modelled as
lists of records inside a `DBState`; SQLAlchemy queries become list
operations (`find?`, `filter`, `argmin` for `ORDER BY port LIMIT 1`),
ORM mutations followed by `commit` become functional state updates, and
`datetime.utcnow()` / `uuid.uuid4()` become a clock value and a fresh-id
counter carried in the state.  `secrets.choice` is modelled by an
explicit tape of random draws (a function from the draw index to the
chosen alphabet index), so that properties quantified over "every
invocation" become properties quantified over every tape.
-/

namespace StreamProvisioning

/-- `StreamStatus` enumeration from `stream_provisioning_models.py`:
PROVISIONING, ACTIVE, SUSPENDED, TERMINATED, MAINTENANCE. -/
inductive StreamStatus where
  | provisioning
  | active
  | suspended
  | terminated
  | maintenance
deriving DecidableEq, Repr

/-- One row of the `port_pool` table (`PortPool` model): the port number
(primary key), the allocation flag, the allocation timestamp and the
owning user / owning stream references (both nullable). -/
structure PortEntry where
  port : Nat
  is_allocated : Bool
  allocated_at : Option Nat
  allocated_to_user_id : Option String
  allocated_to_stream_id : Option Nat
deriving DecidableEq, Repr

/-- One row of the `dedicated_streams` table (`DedicatedStream` model),
restricted to the fields the provisioning service reads or writes. -/
structure DedicatedStream where
  id : Nat
  user_id : String
  port : Nat
  source_password : List Char
  admin_password : List Char
  stream_title : String
  max_listeners : Nat
  bitrate : Nat
  status : StreamStatus
  is_live : Bool
  activated_at : Option Nat
deriving DecidableEq, Repr

/-- A committed database state: the two tables the service manipulates,
plus a fresh-id counter (modelling `uuid.uuid4()`) and a clock
(modelling `datetime.utcnow()`). -/
structure DBState where
  ports : List PortEntry
  streams : List DedicatedStream
  next_id : Nat
  clock : Nat
deriving DecidableEq, Repr

/-- `self.port_range_start` in `StreamProvisioningService.__init__`. -/
def port_range_start : Nat := 8100

/-- `self.port_range_end` in `StreamProvisioningService.__init__`. -/
def port_range_end : Nat := 8200

/-- `self.default_max_listeners` in `StreamProvisioningService.__init__`. -/
def default_max_listeners : Nat := 100

/-- `self.default_bitrate` in `StreamProvisioningService.__init__`. -/
def default_bitrate : Nat := 128

/-- `initialize_port_pool`: if the pool already has rows it is left
untouched (idempotent); otherwise one free row per port in the inclusive
range is created.  Returns `true` on success. -/
def init_port_pool (db : DBState) (range_start range_end : Nat) :
    Bool × DBState :=
  if db.ports.length > 0 then
    (true, db)
  else
    (true,
     { db with
        ports := (List.range (range_end + 1 - range_start)).map (fun i =>
          { port := range_start + i
            is_allocated := false
            allocated_at := none
            allocated_to_user_id := none
            allocated_to_stream_id := none }) })

/-- The SQL query in `allocate_port`:
`SELECT * FROM port_pool WHERE is_allocated = false ORDER BY port LIMIT 1`.
`List.argmin` returns the entry with the smallest port among the free
entries (the first such entry on ties, which cannot arise since `port`
is the primary key). -/
def minFreePortEntry (ports : List PortEntry) : Option PortEntry :=
  (ports.filter (fun p => !p.is_allocated)).argmin (fun p => p.port)

/-- `allocate_port`: select the lowest free port; if none, return `none`
and leave the state unchanged; otherwise mark it allocated, stamp the
allocation time and the requesting user, and commit.  Note that
`allocated_to_stream_id` is not set here. -/
def allocate_port (db : DBState) (user_id : String) :
    Option Nat × DBState :=
  match minFreePortEntry db.ports with
  | none => (none, db)
  | some e =>
      (some e.port,
       { db with
          ports := db.ports.map (fun p =>
            if p.port = e.port then
              { p with
                  is_allocated := true
                  allocated_at := some db.clock
                  allocated_to_user_id := some user_id }
            else p) })

/-- `release_port`: if the port is not in the pool, return `false` and
change nothing; otherwise clear the allocation flag, the timestamp and
both owner references, and commit. -/
def release_port (db : DBState) (port : Nat) : Bool × DBState :=
  if db.ports.any (fun p => decide (p.port = port)) then
    (true,
     { db with
        ports := db.ports.map (fun p =>
          if p.port = port then
            { p with
                is_allocated := false
                allocated_at := none
                allocated_to_user_id := none
                allocated_to_stream_id := none }
          else p) })
  else
    (false, db)

/-- The alphabet of `generate_secure_password`:
`string.ascii_letters + string.digits + "!@#$%^&*"` (70 characters). -/
def password_alphabet : List Char :=
  "abcdefghijklmnopqrstuvwxyzABCDEFGHIJKLMNOPQRSTUVWXYZ0123456789!@#$%^&*".toList

/-- `generate_secure_password(length)`: `length` independent draws of
`secrets.choice(alphabet)`.  The random source is modelled by `tape`,
giving for each draw index the index chosen in the alphabet (reduced
modulo the alphabet size). -/
def generate_secure_password (tape : Nat → Nat) (length : Nat) :
    List Char :=
  (List.range length).map (fun i =>
    password_alphabet.getD (tape i % password_alphabet.length) 'a')

/-- The `WHERE` clause of the existing-stream check in `provision_stream`:
`user_id == user AND status IN (PROVISIONING, ACTIVE)`. -/
def blocksProvision (user_id : String) (s : DedicatedStream) : Bool :=
  decide (s.user_id = user_id) &&
    (decide (s.status = StreamStatus.provisioning) ||
     decide (s.status = StreamStatus.active))

/-- `provision_stream`.  The two environment flags model the outside
world: `shoutcast_ok` is the combined outcome of
`_configure_shoutcast_stream` (finding an active primary server and
`ShoutcastClient.create_stream` succeeding), and `persist_throws` models
any other exception raised while persisting the stream row after the
port was allocated.

The `dedicated_streams.port` column is declared UNIQUE
(`stream_provisioning_models.py:62`), so when any existing stream row —
in particular a terminated one, whose `port` column is never cleared —
already records the allocated port, the INSERT raises `IntegrityError`
at `db.flush()`.  Either kind of exception lands in the `except` branch:
rollback of the uncommitted changes (the port allocation itself was
already committed inside `allocate_port`) followed by `release_port`.

Flow of the source: return the existing PROVISIONING/ACTIVE stream of
the user if there is one; allocate a port (fail with `none` if the pool
is exhausted); generate the two passwords; build the stream row in
PROVISIONING status (`IntegrityError` if its port collides with any
existing stream row); associate the port to the stream; run external
configuration, on success moving to ACTIVE with an activation stamp;
commit.  On an exception after allocation, roll back and release the
port, returning `none`. -/
def provision_stream (db : DBState) (user_id : String)
    (stream_title : String) (max_listeners bitrate : Option Nat)
    (tape_source tape_admin : Nat → Nat)
    (shoutcast_ok persist_throws : Bool) :
    Option DedicatedStream × DBState :=
  match db.streams.find? (blocksProvision user_id) with
  | some existing => (some existing, db)
  | none =>
      match allocate_port db user_id with
      | (none, _) => (none, db)
      | (some port, db1) =>
          if persist_throws ||
              db1.streams.any (fun s => decide (s.port = port)) then
            (none, (release_port db1 port).2)
          else
            let source_password := generate_secure_password tape_source 16
            let admin_password := generate_secure_password tape_admin 16
            let sid := db.next_id
            let stream0 : DedicatedStream :=
              { id := sid
                user_id := user_id
                port := port
                source_password := source_password
                admin_password := admin_password
                stream_title := stream_title
                max_listeners := max_listeners.getD default_max_listeners
                bitrate := bitrate.getD default_bitrate
                status := StreamStatus.provisioning
                is_live := false
                activated_at := none }
            let stream1 :=
              if shoutcast_ok then
                { stream0 with
                    status := StreamStatus.active
                    activated_at := some db.clock }
              else stream0
            (some stream1,
             { db1 with
                streams := db1.streams ++ [stream1]
                ports := db1.ports.map (fun p =>
                  if p.port = port then
                    { p with allocated_to_stream_id := some sid }
                  else p)
                next_id := db.next_id + 1 })

/-- `suspend_stream`: look the stream up by id; `false` if absent;
otherwise set status SUSPENDED and clear `is_live`, then commit.  The
source performs no check of the current status. -/
def suspend_stream (db : DBState) (stream_id : Nat) : Bool × DBState :=
  match db.streams.find? (fun s => decide (s.id = stream_id)) with
  | none => (false, db)
  | some _ =>
      (true,
       { db with
          streams := db.streams.map (fun s =>
            if s.id = stream_id then
              { s with status := StreamStatus.suspended, is_live := false }
            else s) })

/-- `terminate_stream`: look the stream up by id; `false` if absent;
otherwise set status TERMINATED, clear `is_live`, call `release_port` on
the stream's recorded port (unconditionally), and commit. -/
def terminate_stream (db : DBState) (stream_id : Nat) : Bool × DBState :=
  match db.streams.find? (fun s => decide (s.id = stream_id)) with
  | none => (false, db)
  | some st =>
      let db1 :=
        { db with
            streams := db.streams.map (fun s =>
              if s.id = stream_id then
                { s with status := StreamStatus.terminated, is_live := false }
              else s) }
      (true, (release_port db1 st.port).2)

/-! ## General helper lemmas -/

/-- An in-bounds `getD` is a member of the list. -/
theorem getD_mem {α : Type} (l : List α) (i : Nat) (d : α)
    (h : i < l.length) : l.getD i d ∈ l := by
  induction l generalizing i with
  | nil => simp at h
  | cons a t ih =>
      cases i with
      | zero => simp
      | succ j =>
          simp only [List.getD_cons_succ]
          exact List.mem_cons_of_mem a (ih j (by simpa using h))

/-- `StreamStatus` values other than TERMINATED, as a Boolean predicate. -/
def liveStatus : StreamStatus → Bool
  | StreamStatus.terminated => false
  | _ => true

theorem liveStatus_eq_true_iff (st : StreamStatus) :
    liveStatus st = true ↔ st ≠ StreamStatus.terminated := by
  cases st <;> simp [liveStatus]

/-! ## Password generation (C3, C10) -/

/-- C10: `generate_secure_password(n)` returns exactly `n` characters
(in particular exactly 16 with the default argument `length=16`), every
character drawn from the fixed 70-character alphabet of ASCII letters,
digits and the specials `!@#$%^&*` — so generated stream passwords may
contain those special characters. -/
theorem generate_secure_password_length_and_alphabet
    (tape : Nat → Nat) (n : Nat) :
    (generate_secure_password tape n).length = n ∧
    (∀ c ∈ generate_secure_password tape n, c ∈ password_alphabet) ∧
    password_alphabet.length = 70 ∧
    ('!' ∈ password_alphabet ∧ '@' ∈ password_alphabet ∧
     '#' ∈ password_alphabet ∧ '$' ∈ password_alphabet ∧
     '%' ∈ password_alphabet ∧ '^' ∈ password_alphabet ∧
     '&' ∈ password_alphabet ∧ '*' ∈ password_alphabet) := by
  refine ⟨?_, ?_, by decide, by decide⟩
  · simp [generate_secure_password]
  · intro c hc
    simp only [generate_secure_password, List.mem_map, List.mem_range] at hc
    obtain ⟨i, _, rfl⟩ := hc
    exact getD_mem _ _ _ (Nat.mod_lt _ (by decide))

/-- C3 (counterexample): the generator draws every character
independently and uniformly; nothing forces the presence of an
uppercase letter or a digit.  On the random tape that always picks
index 0 every character is the lowercase letter `a`, so this invocation
produces a 16-character secret with no uppercase letter and no digit. -/
theorem password_missing_char_classes :
    (generate_secure_password (fun _ => 0) 16).length = 16 ∧
    (generate_secure_password (fun _ => 0) 16).all
      (fun c => !c.isUpper && !(c.isDigit)) = true := by
  decide

/-- C3 (amended): every generated secret has exactly the requested
length (16 under the default argument) and consists only of lowercase
letters, uppercase letters, digits and the specials `!@#$%^&*`; the
presence of each individual character class in a given secret is not
guaranteed. -/
theorem generated_secret_default_length_charset (tape : Nat → Nat) :
    16 ≤ (generate_secure_password tape 16).length ∧
    ∀ c ∈ generate_secure_password tape 16,
      (c.isLower || c.isUpper || c.isDigit ||
        decide (c ∈ ['!', '@', '#', '$', '%', '^', '&', '*'])) = true := by
  constructor
  · exact le_of_eq
      (generate_secure_password_length_and_alphabet tape 16).1.symm
  · intro c hc
    have hmem : c ∈ password_alphabet :=
      (generate_secure_password_length_and_alphabet tape 16).2.1 c hc
    have hall : ∀ d ∈ password_alphabet,
        (d.isLower || d.isUpper || d.isDigit ||
          decide (d ∈ ['!', '@', '#', '$', '%', '^', '&', '*'])) = true := by
      decide
    exact hall c hmem

/-! ## Port allocation (C9) -/

/-- C9: whenever the pool has a free port, `allocate_port` returns the
lowest-numbered free port, marks exactly that port allocated with the
requesting user and the allocation timestamp, and leaves every other
port row unchanged (and touches no stream row). -/
theorem allocate_port_lowest_free (db : DBState) (u : String)
    (e : PortEntry) (h : minFreePortEntry db.ports = some e) :
    (allocate_port db u).1 = some e.port ∧
    e ∈ db.ports ∧ e.is_allocated = false ∧
    (∀ p ∈ db.ports, p.is_allocated = false → e.port ≤ p.port) ∧
    (∃ q ∈ (allocate_port db u).2.ports,
        q.port = e.port ∧ q.is_allocated = true ∧
        q.allocated_to_user_id = some u ∧ q.allocated_at = some db.clock ∧
        q.allocated_to_stream_id = e.allocated_to_stream_id) ∧
    (∀ p ∈ db.ports, p.port ≠ e.port → p ∈ (allocate_port db u).2.ports) ∧
    (allocate_port db u).2.streams = db.streams := by
  have hmem : e ∈ db.ports.filter (fun p => !p.is_allocated) :=
    List.argmin_mem h
  have hfree : e.is_allocated = false := by
    have := (List.mem_filter.mp hmem).2
    simpa using this
  have hin : e ∈ db.ports := (List.mem_filter.mp hmem).1
  refine ⟨by simp [allocate_port, h], hin, hfree, ?_, ?_, ?_, ?_⟩
  · intro p hp hpfree
    have hpf : p ∈ db.ports.filter (fun p => !p.is_allocated) :=
      List.mem_filter.mpr ⟨hp, by simp [hpfree]⟩
    exact List.le_of_mem_argmin hpf h
  · refine ⟨{ e with
        is_allocated := true
        allocated_at := some db.clock
        allocated_to_user_id := some u },
      ?_, by simp, by simp, by simp, by simp, by simp⟩
    simp only [allocate_port, h]
    exact List.mem_map.mpr ⟨e, hin, by simp⟩
  · intro p hp hne
    simp only [allocate_port, h]
    exact List.mem_map.mpr ⟨p, hp, by simp [hne]⟩
  · simp [allocate_port, h]

/-- C9 (witness): a two-port pool with 8100 and 8101 free; 8100 is
selected, allocated to the requester with the clock value, and 8101 is
untouched. -/
theorem allocate_port_lowest_free_witness :
    (allocate_port
      { ports := [⟨8100, false, none, none, none⟩,
                  ⟨8101, false, none, none, none⟩],
        streams := [], next_id := 1, clock := 7 } "alice").1 = some 8100 ∧
    (⟨8100, false, none, none, none⟩ : PortEntry) ∈
      ({ ports := [⟨8100, false, none, none, none⟩,
                   ⟨8101, false, none, none, none⟩],
         streams := [], next_id := 1, clock := 7 } : DBState).ports := by
  have h := allocate_port_lowest_free
    { ports := [⟨8100, false, none, none, none⟩,
                ⟨8101, false, none, none, none⟩],
      streams := [], next_id := 1, clock := 7 } "alice"
    ⟨8100, false, none, none, none⟩ (by decide)
  exact ⟨h.1, h.2.1⟩

/-! ## Port/stream consistency invariant (C5) -/

/-- The invariant exactly as the spec states it: a port row is marked
allocated if and only if its owning-stream reference is non-null, and
every non-terminated stream's port row carries that stream's id as its
owning-stream reference. -/
def portStreamIffInv (db : DBState) : Prop :=
  (∀ p ∈ db.ports, (p.is_allocated = true ↔ p.allocated_to_stream_id ≠ none)) ∧
  (∀ s ∈ db.streams, s.status ≠ StreamStatus.terminated →
    ∃ p ∈ db.ports, p.port = s.port ∧ p.allocated_to_stream_id = some s.id)

instance (db : DBState) : Decidable (portStreamIffInv db) := by
  unfold portStreamIffInv; infer_instance

/-- The invariant the code actually maintains: port numbers of the pool
are unique (the table's primary key); stream rows' port numbers are
unique (the UNIQUE column `dedicated_streams.port`, which the schema
enforces on every committed state); a port row with a non-null
owning-stream reference is allocated (but not conversely:
`allocate_port` commits allocated rows whose stream reference is still
null); and every non-terminated stream's port row is allocated with
that stream's id as its owning-stream reference. -/
def portStreamInv (db : DBState) : Prop :=
  (db.ports.map (fun p => p.port)).Nodup ∧
  (db.streams.map (fun s => s.port)).Nodup ∧
  (∀ p ∈ db.ports, p.allocated_to_stream_id ≠ none → p.is_allocated = true) ∧
  (∀ s ∈ db.streams, liveStatus s.status = true →
    ∃ p ∈ db.ports, p.port = s.port ∧ p.is_allocated = true ∧
      p.allocated_to_stream_id = some s.id)

instance (db : DBState) : Decidable (portStreamInv db) := by
  unfold portStreamInv; infer_instance

/-- Rewriting a table's rows without changing the key column keeps the
key column's values duplicate-free (the UNIQUE / primary-key
constraints on `port_pool.port` and `dedicated_streams.port`). -/
theorem map_key_preserving_nodup {α β : Type} (l : List α)
    (f : α → α) (key : α → β) (hf : ∀ x, key (f x) = key x)
    (h : (l.map key).Nodup) : ((l.map f).map key).Nodup := by
  rw [List.map_map]
  have hcomp : (key ∘ f) = key := funext fun x => hf x
  rw [hcomp]; exact h

/-- With a duplicate-free key column, two rows with the same key are the
same row. -/
theorem row_eq_of_key_eq {α β : Type} {l : List α} {key : α → β}
    (hnd : (l.map key).Nodup) {x y : α} (hx : x ∈ l) (hy : y ∈ l)
    (hxy : key x = key y) : x = y :=
  List.inj_on_of_nodup_map hnd hx hy hxy

/-- `initialize_port_pool` preserves the invariant. -/
theorem init_port_pool_preserves_inv (db : DBState) (a b : Nat)
    (hinv : portStreamInv db) :
    portStreamInv (init_port_pool db a b).2 := by
  obtain ⟨hnd, hsnd, himp, hlive⟩ := hinv
  unfold init_port_pool
  split
  · exact ⟨hnd, hsnd, himp, hlive⟩
  · rename_i hlen
    have hports : db.ports = [] := by
      cases h : db.ports with
      | nil => rfl
      | cons x t => rw [h] at hlen; simp at hlen
    refine ⟨?_, hsnd, ?_, ?_⟩
    · simp only [List.map_map]
      have : ((fun p : PortEntry => p.port) ∘ fun i => (⟨a + i, false,
          none, none, none⟩ : PortEntry)) = fun i => a + i := rfl
      rw [this]
      exact (List.nodup_range _).map fun i j hij => by omega
    · intro p hp href
      simp only [List.mem_map] at hp
      obtain ⟨i, _, rfl⟩ := hp
      simp at href
    · intro s hs hls
      obtain ⟨p, hp, _⟩ := hlive s hs hls
      rw [hports] at hp
      simp at hp

/-- `allocate_port` preserves the invariant (it only raises the
allocation flag of a row, never changing port numbers or stream
references). -/
theorem allocate_port_preserves_inv (db : DBState) (u : String)
    (hinv : portStreamInv db) :
    portStreamInv (allocate_port db u).2 := by
  obtain ⟨hnd, hsnd, himp, hlive⟩ := hinv
  unfold allocate_port
  cases hm : minFreePortEntry db.ports with
  | none => exact ⟨hnd, hsnd, himp, hlive⟩
  | some e =>
      refine ⟨?_, hsnd, ?_, ?_⟩
      · exact map_key_preserving_nodup db.ports _ (fun p : PortEntry => p.port)
          (fun p => by split <;> rfl) hnd
      · intro p' hp' href
        simp only [List.mem_map] at hp'
        obtain ⟨p, hp, rfl⟩ := hp'
        by_cases hpe : p.port = e.port
        · simp [hpe]
        · simp only [if_neg hpe] at href ⊢
          exact himp p hp href
      · intro s hs hls
        obtain ⟨p, hp, hport, halloc, href⟩ := hlive s hs hls
        by_cases hpe : p.port = e.port
        · exact ⟨{ p with
              is_allocated := true
              allocated_at := some db.clock
              allocated_to_user_id := some u },
            List.mem_map.mpr ⟨p, hp, by simp [hpe]⟩,
            by simpa using hport, by simp, by simpa using href⟩
        · exact ⟨p, List.mem_map.mpr ⟨p, hp, by simp [hpe]⟩,
            hport, halloc, href⟩

/-- `release_port` preserves the invariant provided no live stream holds
the released port. -/
theorem release_port_preserves_inv (db : DBState) (pt : Nat)
    (hinv : portStreamInv db)
    (hfree : ∀ s ∈ db.streams, liveStatus s.status = true → s.port ≠ pt) :
    portStreamInv (release_port db pt).2 := by
  obtain ⟨hnd, hsnd, himp, hlive⟩ := hinv
  unfold release_port
  split
  · refine ⟨?_, hsnd, ?_, ?_⟩
    · exact map_key_preserving_nodup db.ports _ (fun p : PortEntry => p.port)
        (fun p => by split <;> rfl) hnd
    · intro p' hp' href
      simp only [List.mem_map] at hp'
      obtain ⟨p, hp, rfl⟩ := hp'
      by_cases hpe : p.port = pt
      · simp [hpe] at href
      · simp only [if_neg hpe] at href ⊢
        exact himp p hp href
    · intro s hs hls
      obtain ⟨p, hp, hport, halloc, href⟩ := hlive s hs hls
      have hne : p.port ≠ pt := by
        rw [hport]; exact hfree s hs hls
      exact ⟨p, List.mem_map.mpr ⟨p, hp, by simp [hne]⟩,
        hport, halloc, href⟩
  · exact ⟨hnd, hsnd, himp, hlive⟩

/-- A free port row is never the port of a live stream (under the
invariant). -/
theorem live_stream_port_ne_free_port {db : DBState}
    (hinv : portStreamInv db) {e : PortEntry} (he : e ∈ db.ports)
    (hfree : e.is_allocated = false) {s : DedicatedStream}
    (hs : s ∈ db.streams) (hls : liveStatus s.status = true) :
    s.port ≠ e.port := by
  obtain ⟨hnd, _, _, hlive⟩ := hinv
  obtain ⟨p, hp, hport, halloc, _⟩ := hlive s hs hls
  intro hse
  have : p = e := row_eq_of_key_eq hnd hp he (by rw [hport, hse])
  rw [this] at halloc
  rw [halloc] at hfree
  exact Bool.true_eq_false.mp hfree

/-- `provision_stream` preserves the invariant on every path: returning
the existing stream, failing on pool exhaustion, rolling back and
releasing the port on a persistence exception, and committing the new
stream (whether or not external configuration succeeded). -/
theorem provision_stream_preserves_inv (db : DBState)
    (u title : String) (ml br : Option Nat) (t1 t2 : Nat → Nat)
    (ok thr : Bool) (hinv : portStreamInv db) :
    portStreamInv (provision_stream db u title ml br t1 t2 ok thr).2 := by
  unfold provision_stream
  cases hfind : db.streams.find? (blocksProvision u) with
  | some s => exact hinv
  | none =>
      unfold allocate_port
      cases hm : minFreePortEntry db.ports with
      | none => exact hinv
      | some e =>
          have hmem : e ∈ db.ports.filter (fun p => !p.is_allocated) :=
            List.argmin_mem hm
          have hefree : e.is_allocated = false := by
            have := (List.mem_filter.mp hmem).2
            simpa using this
          have hein : e ∈ db.ports := (List.mem_filter.mp hmem).1
          have hdbA0 : portStreamInv (allocate_port db u).2 :=
            allocate_port_preserves_inv db u hinv
          rw [show allocate_port db u = (some e.port,
              { db with ports := db.ports.map (fun p =>
                  if p.port = e.port then
                    { p with
                        is_allocated := true
                        allocated_at := some db.clock
                        allocated_to_user_id := some u }
                  else p) }) from by unfold allocate_port; rw [hm]] at hdbA0
          have hdbA : portStreamInv
              { db with ports := db.ports.map (fun p =>
                  if p.port = e.port then
                    { p with
                        is_allocated := true
                        allocated_at := some db.clock
                        allocated_to_user_id := some u }
                  else p) } := hdbA0
          dsimp only
          by_cases hc : (thr ||
              db.streams.any (fun s => decide (s.port = e.port))) = true
          · rw [if_pos hc]
            apply release_port_preserves_inv _ _ hdbA
            intro s hs hls
            exact live_stream_port_ne_free_port hinv hein hefree hs hls
          · rw [if_neg hc]
            have hor := Bool.or_eq_false_iff.mp (Bool.eq_false_iff.mpr hc)
            have hanyp : db.streams.any
                (fun s => decide (s.port = e.port)) = false := hor.2
            have hnoport : ∀ s ∈ db.streams, s.port ≠ e.port := by
              intro s hs
              have := List.any_eq_false.mp hanyp s hs
              simpa using this
            obtain ⟨hndA, hsndA, himpA, hliveA⟩ := hdbA
            refine ⟨?_, ?_, ?_, ?_⟩
            · exact map_key_preserving_nodup _ _ (fun p : PortEntry => p.port)
                (fun p => by split <;> rfl) hndA
            · rw [List.map_append]
              refine List.Nodup.append hsndA (by simp) ?_
              intro x hx hx1
              obtain ⟨s, hs, rfl⟩ := List.mem_map.mp hx
              simp only [List.map_cons, List.map_nil,
                List.mem_singleton] at hx1
              split at hx1 <;> exact hnoport s hs hx1
            · intro p' hp' href
              obtain ⟨q, hq, rfl⟩ := List.mem_map.mp hp'
              by_cases hqe : q.port = e.port
              · simp only [if_pos hqe]
                obtain ⟨r, hr, rfl⟩ := List.mem_map.mp hq
                by_cases hre : r.port = e.port
                · simp [hre]
                · exfalso
                  simp only [if_neg hre] at hqe
                  exact hre hqe
              · simp only [if_neg hqe] at href ⊢
                exact himpA q hq href
            · intro s hs hls
              simp only [List.mem_append, List.mem_singleton] at hs
              rcases hs with hs | hs
              · obtain ⟨p, hp, hport, halloc, href⟩ := hliveA s hs hls
                have hne : p.port ≠ e.port := by
                  rw [hport]
                  exact live_stream_port_ne_free_port hinv hein hefree hs hls
                exact ⟨p, List.mem_map.mpr ⟨p, hp, by simp [hne]⟩,
                  hport, halloc, href⟩
              · subst hs
                refine ⟨{ e with
                    is_allocated := true
                    allocated_at := some db.clock
                    allocated_to_user_id := some u
                    allocated_to_stream_id := some db.next_id },
                  ?_, ?_, by simp, ?_⟩
                · apply List.mem_map.mpr
                  refine ⟨{ e with
                      is_allocated := true
                      allocated_at := some db.clock
                      allocated_to_user_id := some u }, ?_, by simp⟩
                  exact List.mem_map.mpr ⟨e, hein, by simp⟩
                · split <;> simp
                · split <;> simp

/-- `suspend_stream` preserves the invariant provided the target stream
is not already terminated. -/
theorem suspend_stream_preserves_inv (db : DBState) (sid : Nat)
    (hinv : portStreamInv db)
    (hterm : ∀ s ∈ db.streams, s.id = sid →
      s.status ≠ StreamStatus.terminated) :
    portStreamInv (suspend_stream db sid).2 := by
  obtain ⟨hnd, hsnd, himp, hlive⟩ := hinv
  unfold suspend_stream
  cases hfind : db.streams.find? (fun s => decide (s.id = sid)) with
  | none => exact ⟨hnd, hsnd, himp, hlive⟩
  | some st =>
      refine ⟨hnd, ?_, himp, ?_⟩
      · exact map_key_preserving_nodup db.streams _ (fun s : DedicatedStream => s.port)
          (fun s => by split <;> rfl) hsnd
      · intro s' hs' hls'
        simp only [List.mem_map] at hs'
        obtain ⟨s, hs, rfl⟩ := hs'
        by_cases hse : s.id = sid
        · have hlive_s : liveStatus s.status = true :=
            (liveStatus_eq_true_iff s.status).mpr (hterm s hs hse)
          obtain ⟨p, hp, hport, halloc, href⟩ := hlive s hs hlive_s
          exact ⟨p, hp, by simpa [hse] using hport, halloc,
            by simpa [hse] using href⟩
        · simp only [if_neg hse] at hls' ⊢
          exact hlive s hs hls'

/-- `terminate_stream` preserves the invariant unconditionally: every
row with the target id is marked terminated by the update, and the
released port — the target's recorded port — cannot belong to any
*other* live stream, because the UNIQUE `dedicated_streams.port` column
makes two stream rows with the same port the same row. -/
theorem terminate_stream_preserves_inv (db : DBState) (sid : Nat)
    (hinv : portStreamInv db) :
    portStreamInv (terminate_stream db sid).2 := by
  obtain ⟨hnd, hsnd, himp, hlive⟩ := hinv
  unfold terminate_stream
  cases hfind : db.streams.find? (fun s => decide (s.id = sid)) with
  | none => exact ⟨hnd, hsnd, himp, hlive⟩
  | some st =>
      have hstmem : st ∈ db.streams := List.mem_of_find?_eq_some hfind
      have hstid : st.id = sid := by
        have := List.find?_some hfind
        simpa using this
      simp only
      apply release_port_preserves_inv
      · refine ⟨hnd, ?_, himp, ?_⟩
        · exact map_key_preserving_nodup db.streams _ (fun s : DedicatedStream => s.port)
            (fun s => by split <;> rfl) hsnd
        · intro s' hs' hls'
          simp only [List.mem_map] at hs'
          obtain ⟨s, hs, rfl⟩ := hs'
          by_cases hse : s.id = sid
          · simp [hse, liveStatus] at hls'
          · simp only [if_neg hse] at hls' ⊢
            exact hlive s hs hls'
      · intro s' hs' hls'
        simp only [List.mem_map] at hs'
        obtain ⟨s, hs, rfl⟩ := hs'
        by_cases hse : s.id = sid
        · simp [hse, liveStatus] at hls'
        · simp only [if_neg hse] at hls' ⊢
          intro hcontra
          have hseq : s = st := row_eq_of_key_eq hsnd hs hstmem hcontra
          rw [hseq] at hse
          exact hse hstid

/-- C5 (amended): the code does not maintain "allocated iff non-null
stream reference" — `allocate_port` commits allocated rows whose stream
reference is still null — but it does maintain the weakened invariant
`portStreamInv`: under the schema's uniqueness constraints (pool port
numbers are the primary key, stream rows' ports are the UNIQUE
`dedicated_streams.port` column), a non-null owning-stream reference
implies allocated, and every non-terminated stream's port row is
allocated and references that stream.  It is preserved unconditionally
by `initialize_port_pool`, `allocate_port`, `provision_stream` (all
paths, including the `IntegrityError` rollback) and `terminate_stream`
(also on an already-terminated target), by `release_port` when no
non-terminated stream holds the released port (as at its two call
sites), and by `suspend_stream` when the target stream is not already
terminated — `suspend_stream`'s missing status guard (the C6 defect)
resurrects a terminated stream whose port was already released, which
no port/stream consistency can survive. -/
theorem service_ops_preserve_weakened_port_stream_inv (db : DBState)
    (hinv : portStreamInv db) :
    (∀ a b, portStreamInv (init_port_pool db a b).2) ∧
    (∀ u, portStreamInv (allocate_port db u).2) ∧
    (∀ pt, (∀ s ∈ db.streams, liveStatus s.status = true → s.port ≠ pt) →
        portStreamInv (release_port db pt).2) ∧
    (∀ u title ml br t1 t2 ok thr,
        portStreamInv (provision_stream db u title ml br t1 t2 ok thr).2) ∧
    (∀ sid, (∀ s ∈ db.streams, s.id = sid →
        s.status ≠ StreamStatus.terminated) →
        portStreamInv (suspend_stream db sid).2) ∧
    (∀ sid, portStreamInv (terminate_stream db sid).2) :=
  ⟨fun a b => init_port_pool_preserves_inv db a b hinv,
   fun u => allocate_port_preserves_inv db u hinv,
   fun pt h => release_port_preserves_inv db pt hinv h,
   fun u title ml br t1 t2 ok thr =>
     provision_stream_preserves_inv db u title ml br t1 t2 ok thr hinv,
   fun sid h => suspend_stream_preserves_inv db sid hinv h,
   fun sid => terminate_stream_preserves_inv db sid hinv⟩

/-- A fresh pool with the single free port 8100 and no streams. -/
def dbFreshPool : DBState :=
  { ports := [⟨8100, false, none, none, none⟩], streams := [],
    next_id := 1, clock := 0 }

/-- C5 (counterexample): the invariant as the spec states it — allocated
iff non-null owning-stream reference — holds in a fresh one-port pool
but is already broken by the committed state of a single `allocate_port`
call, which raises the allocation flag while leaving the stream
reference null (only `provision_stream`'s later commit fills it in). -/
theorem allocate_port_violates_iff_inv :
    portStreamIffInv dbFreshPool ∧
    (allocate_port dbFreshPool "alice").2.ports =
      [⟨8100, true, some 0, some "alice", none⟩] ∧
    ¬ portStreamIffInv (allocate_port dbFreshPool "alice").2 := by
  decide

/-- A small state with one active stream owning port 8100 and port 8101
free, used to instantiate the invariant-preservation theorem. -/
def dbInvWitness : DBState :=
  { ports := [⟨8100, true, some 0, some "alice", some 1⟩,
              ⟨8101, false, none, none, none⟩],
    streams := [⟨1, "alice", 8100, [], [], "t", 100, 128,
        StreamStatus.active, true, some 0⟩],
    next_id := 2, clock := 9 }

/-- C5 (witness): the preservation theorem instantiated at a concrete
state, for `allocate_port`, for `release_port` of the free port 8101,
for `suspend_stream` of the active stream 1, and for
`terminate_stream` of stream 1. -/
theorem service_ops_preserve_inv_witness :
    portStreamInv (allocate_port dbInvWitness "bob").2 ∧
    portStreamInv (release_port dbInvWitness 8101).2 ∧
    portStreamInv (suspend_stream dbInvWitness 1).2 ∧
    portStreamInv (terminate_stream dbInvWitness 1).2 := by
  refine ⟨?_, ?_, ?_, ?_⟩
  · exact (service_ops_preserve_weakened_port_stream_inv dbInvWitness
      (by decide)).2.1 "bob"
  · exact (service_ops_preserve_weakened_port_stream_inv dbInvWitness
      (by decide)).2.2.1 8101 (by decide)
  · exact (service_ops_preserve_weakened_port_stream_inv dbInvWitness
      (by decide)).2.2.2.2.1 1 (by decide)
  · exact (service_ops_preserve_weakened_port_stream_inv dbInvWitness
      (by decide)).2.2.2.2.2 1

/-! ## Idempotent provisioning (C1) -/

/-- A suspended (hence non-terminated) stream of user alice. -/
def suspendedStreamC1 : DedicatedStream :=
  { id := 1, user_id := "alice", port := 8100, source_password := [],
    admin_password := [], stream_title := "old", max_listeners := 100,
    bitrate := 128, status := StreamStatus.suspended, is_live := false,
    activated_at := none }

/-- State in which alice's only stream is suspended and port 8101 is
free. -/
def dbSuspendedC1 : DBState :=
  { ports := [⟨8100, true, some 0, some "alice", some 1⟩,
              ⟨8101, false, none, none, none⟩],
    streams := [suspendedStreamC1], next_id := 2, clock := 5 }

/-- C1 (counterexample): the existing-stream check in `provision_stream`
covers only PROVISIONING and ACTIVE, not every non-terminated status.
Alice has a non-terminated (suspended) stream with id 1, yet calling
`provision_stream` again returns a brand-new stream with id 2 and
allocates a second port (the count of allocated ports grows from 1 to
2), instead of returning the existing record with no new allocation. -/
theorem provision_reprovisions_suspended_user :
    suspendedStreamC1 ∈ dbSuspendedC1.streams ∧
    suspendedStreamC1.user_id = "alice" ∧
    suspendedStreamC1.status ≠ StreamStatus.terminated ∧
    suspendedStreamC1.id = 1 ∧
    (provision_stream dbSuspendedC1 "alice" "new" none none (fun _ => 0)
        (fun _ => 0) true false).1.map (fun s => s.id) = some 2 ∧
    (dbSuspendedC1.ports.countP (fun p => p.is_allocated)) = 1 ∧
    ((provision_stream dbSuspendedC1 "alice" "new" none none (fun _ => 0)
        (fun _ => 0) true false).2.ports.countP
          (fun p => p.is_allocated)) = 2 := by
  decide

/-- C1 (amended): provisioning is idempotent per user for streams in
PROVISIONING or ACTIVE status: if the user already has such a stream,
`provision_stream` returns an existing stream of that user in one of
those statuses and leaves the state completely unchanged — same stream
id, no new port allocated.  (For a SUSPENDED or MAINTENANCE stream the
check does not fire and a new stream is provisioned, see the
counterexample.) -/
theorem provision_idempotent_for_provisioning_active (db : DBState)
    (u title : String) (ml br : Option Nat) (t1 t2 : Nat → Nat)
    (ok thr : Bool)
    (h : ∃ s ∈ db.streams, s.user_id = u ∧
      (s.status = StreamStatus.provisioning ∨
       s.status = StreamStatus.active)) :
    ∃ s ∈ db.streams, s.user_id = u ∧
      (s.status = StreamStatus.provisioning ∨
       s.status = StreamStatus.active) ∧
      provision_stream db u title ml br t1 t2 ok thr = (some s, db) := by
  have hsome : (db.streams.find? (blocksProvision u)).isSome := by
    apply List.find?_isSome.mpr
    obtain ⟨s, hs, hu, hst⟩ := h
    refine ⟨s, hs, ?_⟩
    rcases hst with h1 | h1 <;> simp [blocksProvision, hu, h1]
  obtain ⟨s, hfind⟩ := Option.isSome_iff_exists.mp hsome
  have hmem := List.mem_of_find?_eq_some hfind
  have hpred := List.find?_some hfind
  unfold blocksProvision at hpred
  simp only [Bool.and_eq_true, Bool.or_eq_true, decide_eq_true_eq] at hpred
  refine ⟨s, hmem, hpred.1, hpred.2, ?_⟩
  unfold provision_stream
  rw [hfind]

/-- An active stream of user carol. -/
def activeStreamC1 : DedicatedStream :=
  { id := 3, user_id := "carol", port := 8100, source_password := [],
    admin_password := [], stream_title := "c", max_listeners := 100,
    bitrate := 128, status := StreamStatus.active, is_live := true,
    activated_at := some 0 }

/-- State in which carol has an active stream on port 8100. -/
def dbActiveC1 : DBState :=
  { ports := [⟨8100, true, some 0, some "carol", some 3⟩],
    streams := [activeStreamC1], next_id := 4, clock := 1 }

/-- C1 (witness): the amended idempotency theorem instantiated for
carol's active stream. -/
theorem provision_idempotent_witness :
    ∃ s ∈ dbActiveC1.streams, s.user_id = "carol" ∧
      (s.status = StreamStatus.provisioning ∨
       s.status = StreamStatus.active) ∧
      provision_stream dbActiveC1 "carol" "t" none none (fun _ => 0)
        (fun _ => 0) true false = (some s, dbActiveC1) :=
  provision_idempotent_for_provisioning_active dbActiveC1 "carol" "t"
    none none (fun _ => 0) (fun _ => 0) true false (by decide)

/-! ## Idempotent termination (C2) -/

/-- A state produced by a successful `terminate_stream` is a fixed point
of terminating the same stream again: every stream row with the target
id is already TERMINATED with liveness cleared, and every pool row with
the target's recorded port is already fully released.  On such a state
a repeated `terminate_stream` reports success and changes nothing. -/
theorem terminate_stream_noop (db : DBState) (sid : Nat)
    (st : DedicatedStream)
    (hfind : db.streams.find? (fun s => decide (s.id = sid)) = some st)
    (hstreams : ∀ s ∈ db.streams, s.id = sid →
      s.status = StreamStatus.terminated ∧ s.is_live = false)
    (hports : ∀ p ∈ db.ports, p.port = st.port →
      p.is_allocated = false ∧ p.allocated_at = none ∧
      p.allocated_to_user_id = none ∧ p.allocated_to_stream_id = none) :
    terminate_stream db sid = (true, db) := by
  have hmapg : db.streams.map (fun s =>
      if s.id = sid then
        { s with status := StreamStatus.terminated, is_live := false }
      else s) = db.streams := by
    have h1 : ∀ s ∈ db.streams, (if s.id = sid then
        { s with status := StreamStatus.terminated, is_live := false }
      else s) = id s := by
      intro s hs
      by_cases hse : s.id = sid
      · obtain ⟨ha, hb⟩ := hstreams s hs hse
        rw [if_pos hse, ← ha, ← hb]
        rfl
      · rw [if_neg hse]
        rfl
    rw [List.map_congr_left h1, List.map_id]
  have hrec : { db with streams := db.streams.map (fun s =>
      if s.id = sid then
        { s with status := StreamStatus.terminated, is_live := false }
      else s) } = db := by
    rw [hmapg]
  have hmapr : db.ports.map (fun p =>
      if p.port = st.port then
        { p with
            is_allocated := false
            allocated_at := none
            allocated_to_user_id := none
            allocated_to_stream_id := none }
      else p) = db.ports := by
    have h1 : ∀ p ∈ db.ports, (if p.port = st.port then
        ({ p with
            is_allocated := false
            allocated_at := none
            allocated_to_user_id := none
            allocated_to_stream_id := none } : PortEntry)
      else p) = id p := by
      intro p hp
      by_cases hpe : p.port = st.port
      · obtain ⟨pp, pa, pat, pu, ps⟩ := p
        obtain ⟨ha, hb, hc, hd⟩ := hports _ hp hpe
        rw [if_pos hpe]
        simp_all
      · rw [if_neg hpe]
        rfl
    rw [List.map_congr_left h1, List.map_id]
  unfold terminate_stream
  rw [hfind]
  dsimp only
  rw [hrec]
  unfold release_port
  by_cases hany : db.ports.any (fun p => decide (p.port = st.port)) = true
  · rw [if_pos hany]
    dsimp only
    rw [hmapr]
  · rw [if_neg hany]

/-- C2: termination is idempotent.  When `terminate_stream` succeeds
once (returning `true` with the new state `db1`), calling it again for
the same stream on `db1` is a no-op success: it returns `true` — not an
error — and leaves the state completely unchanged.  In particular the
port the first termination released back to the pool is not released
(or modified in any way) again: the redundant internal `release_port`
call touches only rows that are already fully cleared, because the
UNIQUE `dedicated_streams.port` column keeps the terminated row's port
from being reattached to another stream. -/
theorem terminate_stream_idempotent (db : DBState) (sid : Nat)
    (db1 : DBState) (h : terminate_stream db sid = (true, db1)) :
    terminate_stream db1 sid = (true, db1) := by
  cases hfind : db.streams.find? (fun s => decide (s.id = sid)) with
  | none =>
      exfalso
      have hterm0 : terminate_stream db sid = (false, db) := by
        unfold terminate_stream
        rw [hfind]
      rw [hterm0] at h
      exact Bool.false_ne_true (congrArg Prod.fst h)
  | some st =>
      have hstid : st.id = sid := by
        have := List.find?_some hfind
        simpa using this
      have hterm0 : terminate_stream db sid = (true,
          (release_port { db with streams := db.streams.map (fun s =>
            if s.id = sid then
              { s with status := StreamStatus.terminated, is_live := false }
            else s) } st.port).2) := by
        unfold terminate_stream
        rw [hfind]
      have hdb1 : db1 =
          (release_port { db with streams := db.streams.map (fun s =>
            if s.id = sid then
              { s with status := StreamStatus.terminated, is_live := false }
            else s) } st.port).2 := by
        rw [hterm0] at h
        exact (congrArg Prod.snd h).symm
      have hRstreams : db1.streams = db.streams.map (fun s =>
          if s.id = sid then
            { s with status := StreamStatus.terminated, is_live := false }
          else s) := by
        rw [hdb1]
        unfold release_port
        split <;> rfl
      have hfind1 : db1.streams.find? (fun s => decide (s.id = sid)) =
          some { st with
            status := StreamStatus.terminated
            is_live := false } := by
        rw [hRstreams, List.find?_map]
        have hcomp : ((fun s => decide (s.id = sid)) ∘ (fun s =>
            if s.id = sid then
              { s with status := StreamStatus.terminated, is_live := false }
            else s)) = fun s : DedicatedStream => decide (s.id = sid) := by
          funext s
          by_cases hse : s.id = sid <;> simp [hse]
        rw [hcomp, hfind]
        simp [hstid]
      have hstreams1 : ∀ s ∈ db1.streams, s.id = sid →
          s.status = StreamStatus.terminated ∧ s.is_live = false := by
        rw [hRstreams]
        intro s' hs' hid
        obtain ⟨s, hs, rfl⟩ := List.mem_map.mp hs'
        by_cases hse : s.id = sid
        · simp [hse]
        · rw [if_neg hse] at hid
          exact absurd hid hse
      have hports1 : ∀ p ∈ db1.ports, p.port = st.port →
          p.is_allocated = false ∧ p.allocated_at = none ∧
          p.allocated_to_user_id = none ∧
          p.allocated_to_stream_id = none := by
        rw [hdb1]
        unfold release_port
        split
        · intro p' hp' hpe
          obtain ⟨p, hp, rfl⟩ := List.mem_map.mp hp'
          by_cases hq : p.port = st.port
          · simp [hq]
          · rw [if_neg hq] at hpe
            exact absurd hpe hq
        · rename_i hany
          intro p hp hpe
          exfalso
          exact hany (List.any_eq_true.mpr ⟨p, hp, by simp [hpe]⟩)
      exact terminate_stream_noop db1 sid
        { st with status := StreamStatus.terminated, is_live := false }
        hfind1 hstreams1 hports1

/-- A state with one active stream 1 owning port 8100. -/
def dbActiveC2 : DBState :=
  { ports := [⟨8100, true, some 0, some "alice", some 1⟩],
    streams := [⟨1, "alice", 8100, [], [], "a", 100, 128,
      StreamStatus.active, true, some 0⟩],
    next_id := 2, clock := 4 }

/-- The state after stream 1 of `dbActiveC2` is terminated once: the
row is TERMINATED with liveness cleared and port 8100 is back in the
pool. -/
def dbTerminatedOnceC2 : DBState :=
  { ports := [⟨8100, false, none, none, none⟩],
    streams := [⟨1, "alice", 8100, [], [], "a", 100, 128,
      StreamStatus.terminated, false, some 0⟩],
    next_id := 2, clock := 4 }

/-- C2 (witness): the idempotency theorem applied right after the
concrete first termination: the second call returns success and the
exact same state. -/
theorem terminate_stream_idempotent_witness :
    terminate_stream dbTerminatedOnceC2 1 = (true, dbTerminatedOnceC2) :=
  terminate_stream_idempotent dbActiveC2 1 dbTerminatedOnceC2 (by decide)

/-! ## Suspend from terminated (C6) -/

/-- A state whose only stream is terminated (its port already released
back to the pool). -/
def dbTerminatedC6 : DBState :=
  { ports := [⟨8100, false, none, none, none⟩],
    streams := [⟨1, "alice", 8100, [], [], "t", 100, 128,
      StreamStatus.terminated, false, none⟩],
    next_id := 2, clock := 0 }

/-- C6 (failing input): `suspend_stream` performs no status check at
all.  Called on the terminated stream 1 it reports success and moves the
stream from TERMINATED back to SUSPENDED (instead of failing with
`InvalidTransition` and leaving the stream unchanged). -/
theorem suspend_succeeds_on_terminated_stream :
    (dbTerminatedC6.streams.map (fun s => s.status)) =
      [StreamStatus.terminated] ∧
    (suspend_stream dbTerminatedC6 1).1 = true ∧
    ((suspend_stream dbTerminatedC6 1).2.streams.map (fun s => s.status)) =
      [StreamStatus.suspended] := by
  decide

/-! ## Provisioning failure paths (C4, C7, C8) -/

/-- `release_port` on a port present in the pool: reports success,
clears the allocation fields of exactly that row, and touches no stream
row. -/
theorem release_port_frees (db : DBState) (pt : Nat)
    (h : ∃ p ∈ db.ports, p.port = pt) :
    (release_port db pt).1 = true ∧
    (release_port db pt).2.ports = db.ports.map (fun p =>
      if p.port = pt then
        { p with
            is_allocated := false
            allocated_at := none
            allocated_to_user_id := none
            allocated_to_stream_id := none }
      else p) ∧
    (release_port db pt).2.streams = db.streams := by
  have hany : db.ports.any (fun p => decide (p.port = pt)) = true := by
    apply List.any_eq_true.mpr
    obtain ⟨p, hp, hpe⟩ := h
    exact ⟨p, hp, by simp [hpe]⟩
  unfold release_port
  rw [hany]
  exact ⟨rfl, rfl, rfl⟩

/-- C4: if the pool is not exhausted but persisting the Stream row (or
any later step before the final commit) throws, `provision_stream`
returns failure with the allocated port released back to the pool: the
lowest free port `e.port` that was claimed is observably free (and
stream-unreferenced) afterwards, and no stream row was added. -/
theorem provision_failure_releases_port (db : DBState)
    (u title : String) (ml br : Option Nat) (t1 t2 : Nat → Nat)
    (ok : Bool) (e : PortEntry)
    (hno : db.streams.find? (blocksProvision u) = none)
    (hmin : minFreePortEntry db.ports = some e) :
    (provision_stream db u title ml br t1 t2 ok true).1 = none ∧
    (∃ p ∈ (provision_stream db u title ml br t1 t2 ok true).2.ports,
        p.port = e.port ∧ p.is_allocated = false ∧
        p.allocated_to_stream_id = none) ∧
    (∀ p ∈ (provision_stream db u title ml br t1 t2 ok true).2.ports,
        p.port = e.port → p.is_allocated = false) ∧
    (provision_stream db u title ml br t1 t2 ok true).2.streams =
      db.streams := by
  have hein : e ∈ db.ports := (List.mem_filter.mp (List.argmin_mem hmin)).1
  have hprov : provision_stream db u title ml br t1 t2 ok true =
      (none, (release_port { db with ports := db.ports.map (fun p =>
        if p.port = e.port then
          { p with
              is_allocated := true
              allocated_at := some db.clock
              allocated_to_user_id := some u }
        else p) } e.port).2) := by
    unfold provision_stream allocate_port
    rw [hno, hmin]
    rfl
  obtain ⟨_, hports, hstreams⟩ := release_port_frees
    { db with ports := db.ports.map (fun p =>
        if p.port = e.port then
          { p with
              is_allocated := true
              allocated_at := some db.clock
              allocated_to_user_id := some u }
        else p) } e.port
    ⟨_, List.mem_map.mpr ⟨e, hein, rfl⟩, by simp⟩
  rw [hprov]
  dsimp only
  rw [hports]
  refine ⟨rfl, ?_, ?_, hstreams⟩
  · refine ⟨_, List.mem_map.mpr
      ⟨_, List.mem_map.mpr ⟨e, hein, rfl⟩, rfl⟩, ?_⟩
    simp
  · intro p' hp' hpe'
    obtain ⟨q, hq, rfl⟩ := List.mem_map.mp hp'
    by_cases hqe : q.port = e.port
    · simp [hqe]
    · exfalso
      simp only [if_neg hqe] at hpe'
      exact hqe hpe'

/-- A fresh one-port pool used to instantiate the C4 theorem. -/
def dbFreshC4 : DBState :=
  { ports := [⟨8100, false, none, none, none⟩], streams := [],
    next_id := 1, clock := 0 }

/-- C4 (witness): the mid-flow-failure theorem instantiated at a fresh
one-port pool: the provisioning call that throws after claiming port
8100 returns failure, leaves 8100 free and unreferenced, and adds no
stream row. -/
theorem provision_failure_releases_port_witness :
    (provision_stream dbFreshC4 "dave" "t" none none (fun _ => 0)
        (fun _ => 0) true true).1 = none ∧
    (∃ p ∈ (provision_stream dbFreshC4 "dave" "t" none none (fun _ => 0)
        (fun _ => 0) true true).2.ports,
        p.port = 8100 ∧ p.is_allocated = false ∧
        p.allocated_to_stream_id = none) ∧
    (∀ p ∈ (provision_stream dbFreshC4 "dave" "t" none none (fun _ => 0)
        (fun _ => 0) true true).2.ports,
        p.port = 8100 → p.is_allocated = false) ∧
    (provision_stream dbFreshC4 "dave" "t" none none (fun _ => 0)
        (fun _ => 0) true true).2.streams = dbFreshC4.streams :=
  provision_failure_releases_port dbFreshC4 "dave" "t" none none
    (fun _ => 0) (fun _ => 0) true ⟨8100, false, none, none, none⟩
    rfl (by decide)

/-- C7: when external configuration fails (`create_stream` fails or no
active primary server is reachable, `shoutcast_ok = false`) but nothing
throws, `provision_stream` still returns a stream record: its status is
PROVISIONING, it carries the allocated port and the generated
credentials, it is persisted, and the port row is still allocated with
that stream's id as its owning-stream reference — neither leaked nor
freed. -/
theorem provision_external_failure_keeps_record (db : DBState)
    (u title : String) (ml br : Option Nat) (t1 t2 : Nat → Nat)
    (e : PortEntry)
    (hno : db.streams.find? (blocksProvision u) = none)
    (hmin : minFreePortEntry db.ports = some e)
    (hport : db.streams.any (fun s => decide (s.port = e.port)) = false) :
    ∃ s : DedicatedStream,
      (provision_stream db u title ml br t1 t2 false false).1 = some s ∧
      s.status = StreamStatus.provisioning ∧
      s.port = e.port ∧ s.user_id = u ∧ s.id = db.next_id ∧
      s.source_password = generate_secure_password t1 16 ∧
      s.admin_password = generate_secure_password t2 16 ∧
      s ∈ (provision_stream db u title ml br t1 t2 false false).2.streams ∧
      ∃ p ∈ (provision_stream db u title ml br t1 t2 false false).2.ports,
        p.port = e.port ∧ p.is_allocated = true ∧
        p.allocated_to_stream_id = some s.id := by
  have hein : e ∈ db.ports := (List.mem_filter.mp (List.argmin_mem hmin)).1
  have hprov : provision_stream db u title ml br t1 t2 false false =
      (some
        { id := db.next_id
          user_id := u
          port := e.port
          source_password := generate_secure_password t1 16
          admin_password := generate_secure_password t2 16
          stream_title := title
          max_listeners := ml.getD default_max_listeners
          bitrate := br.getD default_bitrate
          status := StreamStatus.provisioning
          is_live := false
          activated_at := none },
       { ports := (db.ports.map (fun p =>
            if p.port = e.port then
              { p with
                  is_allocated := true
                  allocated_at := some db.clock
                  allocated_to_user_id := some u }
            else p)).map (fun p =>
            if p.port = e.port then
              { p with allocated_to_stream_id := some db.next_id }
            else p)
         streams := db.streams ++
           [{ id := db.next_id
              user_id := u
              port := e.port
              source_password := generate_secure_password t1 16
              admin_password := generate_secure_password t2 16
              stream_title := title
              max_listeners := ml.getD default_max_listeners
              bitrate := br.getD default_bitrate
              status := StreamStatus.provisioning
              is_live := false
              activated_at := none }]
         next_id := db.next_id + 1
         clock := db.clock }) := by
    unfold provision_stream allocate_port
    rw [hno, hmin]
    dsimp only
    rw [hport]
    rfl
  rw [hprov]
  refine ⟨_, rfl, rfl, rfl, rfl, rfl, rfl, rfl, ?_, ?_⟩
  · exact List.mem_append.mpr (Or.inr (List.mem_singleton.mpr rfl))
  · refine ⟨_, List.mem_map.mpr
      ⟨_, List.mem_map.mpr ⟨e, hein, rfl⟩, rfl⟩, ?_⟩
    simp

/-- A fresh one-port pool used to instantiate the C7 theorem. -/
def dbFreshC7 : DBState :=
  { ports := [⟨8100, false, none, none, none⟩], streams := [],
    next_id := 1, clock := 0 }

/-- C7 (witness): the external-failure theorem instantiated at a fresh
one-port pool. -/
theorem provision_external_failure_witness :
    ∃ s : DedicatedStream,
      (provision_stream dbFreshC7 "erin" "t" none none (fun _ => 0)
        (fun _ => 0) false false).1 = some s ∧
      s.status = StreamStatus.provisioning ∧
      s.port = 8100 ∧ s.user_id = "erin" ∧ s.id = 1 ∧
      s.source_password = generate_secure_password (fun _ => 0) 16 ∧
      s.admin_password = generate_secure_password (fun _ => 0) 16 ∧
      s ∈ (provision_stream dbFreshC7 "erin" "t" none none (fun _ => 0)
        (fun _ => 0) false false).2.streams ∧
      ∃ p ∈ (provision_stream dbFreshC7 "erin" "t" none none (fun _ => 0)
        (fun _ => 0) false false).2.ports,
        p.port = 8100 ∧ p.is_allocated = true ∧
        p.allocated_to_stream_id = some s.id :=
  provision_external_failure_keeps_record dbFreshC7 "erin" "t" none none
    (fun _ => 0) (fun _ => 0) ⟨8100, false, none, none, none⟩
    rfl (by decide) rfl

/-- C8: when the pool is exhausted (no free port), `provision_stream`
fails before any persistence: the returned stream is `none` and the
whole database state — every port row, every stream row, the fresh-id
counter — is exactly as before.  No stream row, no stored passwords, no
allocation-state change. -/
theorem provision_no_capacity_no_side_effects (db : DBState)
    (u title : String) (ml br : Option Nat) (t1 t2 : Nat → Nat)
    (ok thr : Bool)
    (hno : db.streams.find? (blocksProvision u) = none)
    (hfull : minFreePortEntry db.ports = none) :
    provision_stream db u title ml br t1 t2 ok thr = (none, db) := by
  unfold provision_stream allocate_port
  rw [hno, hfull]

/-- A pool whose only port is already allocated to frank's active
stream 1. -/
def dbExhaustedC8 : DBState :=
  { ports := [⟨8100, true, some 0, some "frank", some 1⟩],
    streams := [⟨1, "frank", 8100, [], [], "f", 100, 128,
      StreamStatus.active, true, some 0⟩],
    next_id := 2, clock := 3 }

/-- C8 (witness): grace's provisioning attempt against the exhausted
pool returns `none` and leaves the state untouched. -/
theorem provision_no_capacity_witness :
    provision_stream dbExhaustedC8 "grace" "g" none none (fun _ => 0)
      (fun _ => 0) true false = (none, dbExhaustedC8) :=
  provision_no_capacity_no_side_effects dbExhaustedC8 "grace" "g"
    none none (fun _ => 0) (fun _ => 0) true false (by decide) (by decide)

end StreamProvisioning
